import Mathlib

/-!
# rezn-jcsd: the socket server (`cmd/jcsd`) and the command line front end (`cmd/cli`)

A shallow embedding of `src/cmd/jcsd/main.go` and `src/cmd/cli/main.go`.

* A Go `string` and a Go `[]byte` are both finite byte sequences; the conversions
  `[]byte(s)` and `string(b)` copy the bytes unchanged, so both are `List UInt8` here.
* A Go `error` is modelled by its message, the value of `err.Error()`; a `nil` error is
  `none`.
* `jsoncanonicalizer.Transform` (package `internal/jcs`), `json.Decoder.Decode`,
  `json.Encoder.Encode`, `io.ReadAll`, `net.Listen` and `Accept` are not part of the two
  source files: they are parameters of the embedding. A Go call returning `(value, err)`
  is a function into `value × Option GoError`, both components kept, as in Go.
* Where a property depends on what `Transform` returns, `Transform` is `Engine.Transform`,
  modelled from the specification of the engine.
* The effects of `handleConnection` are recorded, in program order, as a list of `Event`s.
-/

namespace Jcsd

/-- Go `string`: an immutable sequence of bytes. -/
abbrev GoString := List UInt8

/-- Go `[]byte`. -/
abbrev Bytes := List UInt8

/-- Go `error`, represented by the text `err.Error()` returns. -/
abbrev GoError := GoString

/-- Go string literal: the UTF-8 bytes of the text. -/
def lit (s : String) : GoString := s.toUTF8.data.toList

/-- Formatting of `fmt.Fprintln` / `fmt.Println` for string and error operands: the operands
separated by single spaces, followed by a newline. -/
def Fprintln (operands : List GoString) : GoString :=
  List.intercalate (lit " ") operands ++ lit "\n"

/-- The constant `defaultSocket = "/run/rezn-jcsd/jcs.sock"`. -/
def defaultSocket : GoString := lit "/run/rezn-jcsd/jcs.sock"

/-- The type `Request struct { Op string; Source string }`; Go zero values are the defaults. -/
structure Request where
  Op : GoString := []
  Source : GoString := []
deriving DecidableEq

/-- The type `Response struct { Result string; Error string }` (both tagged `omitempty`). -/
structure Response where
  Result : GoString := []
  Error : GoString := []
deriving DecidableEq

/-- The call `decoder.Decode(&req)` on the bytes a connection carries: the contents of `req` after
the call, and the returned error. -/
abbrev Decoder := Bytes → Request × Option GoError

/-- The call `jsoncanonicalizer.Transform(input)`: the `(canon, err)` pair it returns. -/
abbrev Transformer := Bytes → Bytes × Option GoError

/-- A `net.Conn` as the handler sees it: the bytes the peer sends, and for each response the
outcome of `encoder.Encode` writing it to this connection (`none` when the write succeeds). -/
structure Conn where
  input : Bytes
  write : Response → Option GoError

/-- The observable steps of `handleConnection`. -/
inductive Event where
  /-- The call `decoder.Decode(&req)`. -/
  | decode : Event
  /-- A line written with `fmt.Fprintln(os.Stderr, ...)`. -/
  | stderr : GoString → Event
  /-- The call `jsoncanonicalizer.Transform(input)`. -/
  | transform : Bytes → Event
  /-- The call `encoder.Encode(resp)` and the error it returned. -/
  | encode : Response → Option GoError → Event
  /-- The deferred call `conn.Close()`. -/
  | close : Event
deriving DecidableEq

/-- The function `handleConnection(conn net.Conn)`, lines 24-53 of `cmd/jcsd/main.go`.
`defer conn.Close()` runs when the function returns, on every path, hence last. -/
def handleConnection (Decode : Decoder) (Transform : Transformer) (conn : Conn) :
    List Event :=
  Event.decode ::
    (match Decode conn.input with
     | (_, some err) =>
       [Event.stderr (Fprintln [lit "Decode error:", err]),
        Event.encode { Error := lit "invalid JSON" } (conn.write { Error := lit "invalid JSON" })]
     | (req, none) =>
       if req.Op ≠ lit "canon" then
         [Event.stderr (Fprintln [lit "Unsupported op:", req.Op]),
          Event.encode { Error := lit "unsupported op" }
            (conn.write { Error := lit "unsupported op" })]
       else
         Event.transform req.Source ::
           (match Transform req.Source with
            | (_, some err) =>
              [Event.stderr (Fprintln [lit "Canonicalization error:", err]),
               Event.encode { Error := err } (conn.write { Error := err })]
            | (canon, none) =>
              match conn.write { Result := canon } with
              | some err =>
                [Event.encode { Result := canon } (some err),
                 Event.stderr (Fprintln [lit "Encode response error:", err])]
              | none => [Event.encode { Result := canon } none]))
    ++ [Event.close]

/-- The `Response` values handed to `encoder.Encode`, in order. -/
def responses : List Event → List Response
  | [] => []
  | Event.encode r _ :: t => r :: responses t
  | _ :: t => responses t

/-- The inputs of the calls to `Transform`, in order. -/
def transformCalls : List Event → List Bytes
  | [] => []
  | Event.transform b :: t => b :: transformCalls t
  | _ :: t => transformCalls t

/-- The lines written to standard error, in order. -/
def stderrLines : List Event → List GoString
  | [] => []
  | Event.stderr l :: t => l :: stderrLines t
  | _ :: t => stderrLines t

/-- The number of calls to `decoder.Decode`. -/
def decodeCount : List Event → Nat
  | [] => 0
  | Event.decode :: t => decodeCount t + 1
  | _ :: t => decodeCount t

/-- The number of calls to `conn.Close`. -/
def closeCount : List Event → Nat
  | [] => 0
  | Event.close :: t => closeCount t + 1
  | _ :: t => closeCount t

/-- A response field is populated when it is not the empty string (`omitempty` drops an empty
field from the encoded object). -/
def populated (s : GoString) : Bool := !s.isEmpty

/-- Exactly one of `Result` and `Error` is populated. -/
def exactlyOnePopulated (r : Response) : Bool := xor (populated r.Result) (populated r.Error)

/-- What the server process leaves behind. -/
structure ServerRun where
  /-- Text written to standard output. -/
  stdout : GoString := []
  /-- Text written to standard error by `main` itself. -/
  stderr : GoString := []
  /-- The status passed to `os.Exit`, `none` while the accept loop is still running. -/
  exit : Option Nat := none
  /-- The goroutines started with `go handleConnection(conn)`: each connection with the
  events of its handler. -/
  goroutines : List (Conn × List Event) := []

/-- The loop `for { conn, err := ln.Accept(); if err != nil { continue }; go
handleConnection(conn) }`, lines 72-78, over a finite prefix of the results of `Accept`. -/
def acceptLoop (Decode : Decoder) (Transform : Transformer) :
    List (Conn × Option GoError) → List (Conn × List Event)
  | [] => []
  | (_, some _) :: rest => acceptLoop Decode Transform rest
  | (conn, none) :: rest =>
    (conn, handleConnection Decode Transform conn) :: acceptLoop Decode Transform rest

/-- The function `main()` of `cmd/jcsd/main.go`, lines 55-79. `getenv` is the value of
`os.Getenv("REZN_JCSD_SOCKET")`, `listen` the error of `net.Listen("unix", socket)`, and
`accepts` a finite prefix of the results of `ln.Accept()`. The call `os.Remove(socket)`, whose
result the code discards, acts on the file system only and is left out; `defer ln.Close()`
never runs, since `main` either exits or loops forever. -/
def main (Decode : Decoder) (Transform : Transformer) (getenv : GoString)
    (listen : GoString → Option GoError) (accepts : List (Conn × Option GoError)) :
    ServerRun :=
  let socket := if getenv = lit "" then defaultSocket else getenv
  match listen socket with
  | some err =>
    { stderr := lit "Failed to bind to socket: " ++ err ++ lit "\n", exit := some 1 }
  | none =>
    { stdout := Fprintln [lit "Listening on", socket],
      goroutines := acceptLoop Decode Transform accepts }

/-- The response the protocol description of the server assigns to the bytes of one
connection: `invalid JSON` on a decode failure, `unsupported op` for an op other than
`canon`, the canonicalizer's message on its failure, the canonical text otherwise. -/
def specResponse (Decode : Decoder) (Transform : Transformer) (input : Bytes) : Response :=
  match Decode input with
  | (_, some _) => { Error := lit "invalid JSON" }
  | (req, none) =>
    if req.Op = lit "canon" then
      match Transform req.Source with
      | (_, some msg) => { Error := msg }
      | (canon, none) => { Result := canon }
    else { Error := lit "unsupported op" }

end Jcsd

namespace Cli

open Jcsd (GoString Bytes GoError lit Fprintln Transformer)

/-- What one run of the command line program leaves behind. -/
structure Run where
  /-- Bytes written to standard output. -/
  stdout : GoString := []
  /-- Bytes written to standard error. -/
  stderr : GoString := []
  /-- The inputs of the calls to `Transform`. -/
  transformCalls : List Bytes := []
  /-- The exit status: the argument of `os.Exit`, or 0 when `main` returns. -/
  exit : Nat := 0
deriving DecidableEq

/-- The function `main()` of `cmd/cli/main.go`, lines 11-25. `stdin` is the `(input, err)` pair that
`io.ReadAll(os.Stdin)` returns. -/
def main (stdin : Bytes × Option GoError) (Transform : Transformer) : Run :=
  match stdin with
  | (_, some err) =>
    { stderr := Fprintln [lit "Error reading stdin:", err], exit := 1 }
  | (input, none) =>
    match Transform input with
    | (_, some err) =>
      { stderr := Fprintln [lit "Canonicalization error:", err],
        transformCalls := [input], exit := 1 }
    | (canon, none) =>
      { stdout := Fprintln [canon], transformCalls := [input], exit := 0 }

end Cli

namespace Engine

open Jcsd (GoString Bytes GoError lit Transformer)

/-! ## The engine (package `internal/jcs`), which is not among the source files

`jsoncanonicalizer.Transform` is called by both front ends but its code is absent. It is
modelled here from sections 3, 4.1, 4.2 and 6 of the specification. Decoding text into
doubles is floating point work and stays a parameter (`parse`); serialization is defined in
full. -/

/-- Modelled from the spec: the Number of section 3, "an exact finite IEEE-754 double", absent
with the engine. A finite double is identified by its sign and its shortest decimal form that
reads back as the same double: the digits `digits` (no leading zero; `0` for zero), of which
there are `k`, and the exponent `exponent = n` with value `digits * 10 ^ (n - k)`, the
`s`, `k`, `n` of the ECMAScript number-to-string algorithm that section 4.2 refers to. Holding
only finite doubles, the type has no NaN and no infinity. -/
structure Number where
  negative : Bool
  digits : Nat
  exponent : Int
deriving DecidableEq

/-- Modelled from the spec: the Value of section 3, a closed tagged union over Null, Boolean,
Number, String (a sequence of Unicode scalar values), Array (an ordered sequence of values)
and Object (a mapping from strings to values, here its list of members). -/
inductive Value where
  | null : Value
  | boolean : Bool → Value
  | number : Number → Value
  | string : List Char → Value
  | array : List Value → Value
  | object : List (List Char × Value) → Value

/-- Modelled from the spec: the ParseError of section 4.1, "carrying byte position and
message". -/
structure ParseError where
  position : Nat
  message : GoString
deriving DecidableEq

/-- Modelled from the spec: the decimal digits of a natural number, as ASCII bytes, used by the
number rule of section 4.2. -/
def decimal (n : Nat) : Bytes := (Nat.toDigits 10 n).map Char.toUInt8

/-- Modelled from the spec: the Number rule of section 4.2, the ECMAScript number-to-string
algorithm applied to the shortest decimal form: zero and negative zero render as `0`; with
`k` digits and exponent `n`, an integral value up to 21 integer digits is written without
decimal point, a value with `0 < n <= 21` with the point after `n` digits, a value with
`-6 < n <= 0` as `0.` followed by `-n` zeros and the digits, and every other value in
exponential notation with an explicit sign of the exponent `n - 1`. -/
def numberText (x : Number) : Bytes :=
  if x.digits = 0 then lit "0"
  else
    let s := decimal x.digits
    let k : Int := s.length
    let n := x.exponent
    (if x.negative then lit "-" else []) ++
      (if k ≤ n ∧ n ≤ 21 then s ++ List.replicate (n - k).toNat (48 : UInt8)
       else if 0 < n ∧ n ≤ 21 then s.take n.toNat ++ lit "." ++ s.drop n.toNat
       else if -6 < n ∧ n ≤ 0 then lit "0." ++ List.replicate (-n).toNat (48 : UInt8) ++ s
       else
         let e := n - 1
         let exp := lit "e" ++ (if e < 0 then lit "-" else lit "+") ++ decimal e.natAbs
         if k = 1 then s ++ exp else s.take 1 ++ lit "." ++ s.drop 1 ++ exp)

/-- Modelled from the spec: the escaping of one scalar value by the String rule of section
4.2: quote and backslash are escaped with a backslash, backspace, tab, newline, formfeed and
carriage return have their short named escapes, every other control below 0x20 is a
`\u00XX` escape (lower case hexadecimal digits, as in RFC 8785), and every other scalar value
is emitted unescaped in UTF-8. -/
def escapeChar (c : Char) : Bytes :=
  if c = '"' then lit "\\\""
  else if c = '\\' then lit "\\\\"
  else if c.toNat = 0x08 then lit "\\b"
  else if c.toNat = 0x09 then lit "\\t"
  else if c.toNat = 0x0a then lit "\\n"
  else if c.toNat = 0x0c then lit "\\f"
  else if c.toNat = 0x0d then lit "\\r"
  else if c.toNat < 0x20 then
    lit "\\u00" ++ [(Nat.digitChar (c.toNat / 16)).toUInt8, (Nat.digitChar (c.toNat % 16)).toUInt8]
  else String.utf8EncodeChar c

/-- Modelled from the spec: the String rule of section 4.2, the escaped text between double
quotes. -/
def stringText (s : List Char) : Bytes := lit "\"" ++ (s.map escapeChar).flatten ++ lit "\""

/-- Modelled from the spec: the UTF-16 code units of a scalar value (a surrogate pair for a
supplementary-plane character), by which section 4.2 orders object keys. -/
def utf16Units (c : Char) : List Nat :=
  if c.toNat < 0x10000 then [c.toNat]
  else [0xD800 + (c.toNat - 0x10000) / 0x400, 0xDC00 + (c.toNat - 0x10000) % 0x400]

/-- Modelled from the spec: ascending order of code-unit sequences (section 4.2), unit by
unit, a proper initial segment first. -/
def unitsLE : List Nat → List Nat → Bool
  | [], _ => true
  | _ :: _, [] => false
  | a :: as, b :: bs => a < b || (a == b && unitsLE as bs)

/-- Modelled from the spec: the key order of section 4.2, "ascending by UTF-16 code-unit
sequence". -/
def keyLE (a b : List Char) : Bool :=
  unitsLE (a.map utf16Units).flatten (b.map utf16Units).flatten

/-- Modelled from the spec: insertion of one serialized member into members already sorted by
key (section 4.2, Object rule). -/
def insertMember (m : List Char × Bytes) : List (List Char × Bytes) → List (List Char × Bytes)
  | [] => [m]
  | h :: t => if keyLE m.1 h.1 then m :: h :: t else h :: insertMember m t

/-- Modelled from the spec: the serialized members of an object sorted by key (section 4.2,
Object rule). -/
def sortMembers : List (List Char × Bytes) → List (List Char × Bytes)
  | [] => []
  | h :: t => insertMember h (sortMembers t)

mutual
/-- Modelled from the spec: the function `canonicalize(Value) -> bytes` of section 4.2, absent
with the engine: `null`, `true`/`false`, the number text, the quoted string, `[` + the
comma-joined elements in their order + `]`, and `{` + the comma-joined `"key":value` pairs
sorted by key + `}`, with no whitespace. Its failure case (a non-finite Number) has no input
here, `Number` holding finite doubles only. -/
def canonicalize : Value → Bytes
  | Value.null => lit "null"
  | Value.boolean true => lit "true"
  | Value.boolean false => lit "false"
  | Value.number x => numberText x
  | Value.string s => stringText s
  | Value.array items =>
    lit "[" ++ List.intercalate (lit ",") (canonicalizeItems items) ++ lit "]"
  | Value.object members =>
    lit "\x7b" ++ List.intercalate (lit ",")
      ((sortMembers (canonicalizeMembers members)).map
        (fun m => stringText m.1 ++ lit ":" ++ m.2)) ++ lit "\x7d"
/-- Modelled from the spec: the canonical texts of the elements of an array, in their order
(section 4.2, Array rule). -/
def canonicalizeItems : List Value → List Bytes
  | [] => []
  | v :: rest => canonicalize v :: canonicalizeItems rest
/-- Modelled from the spec: the members of an object with their values serialized (section
4.2, Object rule). -/
def canonicalizeMembers : List (List Char × Value) → List (List Char × Bytes)
  | [] => []
  | (k, v) :: rest => (k, canonicalize v) :: canonicalizeMembers rest
end

/-- Modelled from the spec: the engine interface `transform(bytes) -> (bytes, error)` of
section 6, the function `jsoncanonicalizer.Transform` that both front ends call and whose code
is absent: the input is decoded by `parse(bytes) -> Value` (section 4.1, a parameter), a
ParseError is returned as the error, with its message as error text, and a decoded value is
serialized by `canonicalize`. -/
def Transform (parse : Bytes → Except ParseError Value) : Transformer := fun input =>
  match parse input with
  | Except.error e => ([], some e.message)
  | Except.ok v => (canonicalize v, none)

end Engine

namespace Fixture

open Jcsd

/-- A decoder for examples: what `encoding/json` yields on three sample connections. -/
def decode : Decoder := fun b =>
  if b = lit "\x7b\"op\":\"canon\",\"source\":\"\x7b\x7d\"\x7d" then
    ({ Op := lit "canon", Source := lit "\x7b\x7d" }, none)
  else if b = lit "\x7b\"op\":\"bogus\",\"source\":\"\x7b\x7d\"\x7d" then
    ({ Op := lit "bogus", Source := lit "\x7b\x7d" }, none)
  else if b = lit "\x7b\"op\":\"canon\",\"source\":\"x\"\x7d" then
    ({ Op := lit "canon", Source := lit "x" }, none)
  else ({}, some (lit "unexpected EOF"))

/-- A canonicalizer for examples: the empty object is canonical, anything else is refused. -/
def transform : Transformer := fun b =>
  if b = lit "\x7b\x7d" then (lit "\x7b\x7d", none)
  else ([], some (lit "invalid character"))

/-- A decoder of the engine for examples: the empty object is decoded, anything else is
refused at its first byte. -/
def parse : Bytes → Except Engine.ParseError Engine.Value := fun b =>
  if b = lit "\x7b\x7d" then Except.ok (Engine.Value.object [])
  else Except.error { position := 0, message := lit "invalid character" }

/-- A connection carrying the request `canon` of the empty object; writes succeed. -/
def canonConn : Conn :=
  { input := lit "\x7b\"op\":\"canon\",\"source\":\"\x7b\x7d\"\x7d", write := fun _ => none }

/-- A connection carrying the request `canon` of the empty object; every write fails. -/
def brokenCanonConn : Conn :=
  { input := lit "\x7b\"op\":\"canon\",\"source\":\"\x7b\x7d\"\x7d",
    write := fun _ => some (lit "broken pipe") }

/-- A connection carrying a request with the op `bogus`; writes succeed. -/
def bogusConn : Conn :=
  { input := lit "\x7b\"op\":\"bogus\",\"source\":\"\x7b\x7d\"\x7d", write := fun _ => none }

/-- A connection carrying the request `canon` of a source that is not JSON; writes succeed. -/
def badSourceConn : Conn :=
  { input := lit "\x7b\"op\":\"canon\",\"source\":\"x\"\x7d", write := fun _ => none }

/-- A connection carrying only an opening brace; writes succeed. -/
def braceConn : Conn := { input := lit "\x7b", write := fun _ => none }

end Fixture


namespace Jcsd

/-! ## Helper lemmas -/

theorem Fprintln_ne_nil (operands : List GoString) : Fprintln operands ≠ [] := by
  unfold Fprintln
  have h : lit "\n" ≠ [] := by decide
  intro hnil
  exact h (List.append_eq_nil.mp hnil).2

/-- The events of the handler when `Decode` returns an error. -/
theorem events_decode_error (Decode : Decoder) (Transform : Transformer)
    (conn : Conn) (req : Request) (err : GoError)
    (hdec : Decode conn.input = (req, some err)) :
    handleConnection Decode Transform conn =
      [Event.decode, Event.stderr (Fprintln [lit "Decode error:", err]),
       Event.encode { Error := lit "invalid JSON" } (conn.write { Error := lit "invalid JSON" }),
       Event.close] := by
  simp [handleConnection, hdec]

/-- The events of the handler when the decoded op is not `canon`. -/
theorem events_unsupported (Decode : Decoder) (Transform : Transformer)
    (conn : Conn) (req : Request)
    (hdec : Decode conn.input = (req, none)) (hop : req.Op ≠ lit "canon") :
    handleConnection Decode Transform conn =
      [Event.decode, Event.stderr (Fprintln [lit "Unsupported op:", req.Op]),
       Event.encode { Error := lit "unsupported op" }
         (conn.write { Error := lit "unsupported op" }),
       Event.close] := by
  simp [handleConnection, hdec, hop]

/-- The events of the handler when `Transform` returns an error. -/
theorem events_transform_error (Decode : Decoder) (Transform : Transformer)
    (conn : Conn) (req : Request) (c : Bytes) (e : GoError)
    (hdec : Decode conn.input = (req, none)) (hop : req.Op = lit "canon")
    (htr : Transform req.Source = (c, some e)) :
    handleConnection Decode Transform conn =
      [Event.decode, Event.transform req.Source,
       Event.stderr (Fprintln [lit "Canonicalization error:", e]),
       Event.encode { Error := e } (conn.write { Error := e }),
       Event.close] := by
  simp [handleConnection, hdec, hop, htr]

/-- The events of the handler when `Transform` succeeds and the response is written. -/
theorem events_success_written (Decode : Decoder) (Transform : Transformer)
    (conn : Conn) (req : Request) (c : Bytes)
    (hdec : Decode conn.input = (req, none)) (hop : req.Op = lit "canon")
    (htr : Transform req.Source = (c, none)) (hw : conn.write { Result := c } = none) :
    handleConnection Decode Transform conn =
      [Event.decode, Event.transform req.Source,
       Event.encode { Result := c } none, Event.close] := by
  simp [handleConnection, hdec, hop, htr, hw]

/-- The events of the handler when `Transform` succeeds and writing the response fails. -/
theorem events_success_unwritten (Decode : Decoder) (Transform : Transformer)
    (conn : Conn) (req : Request) (c : Bytes) (w : GoError)
    (hdec : Decode conn.input = (req, none)) (hop : req.Op = lit "canon")
    (htr : Transform req.Source = (c, none)) (hw : conn.write { Result := c } = some w) :
    handleConnection Decode Transform conn =
      [Event.decode, Event.transform req.Source,
       Event.encode { Result := c } (some w),
       Event.stderr (Fprintln [lit "Encode response error:", w]), Event.close] := by
  simp [handleConnection, hdec, hop, htr, hw]

/-- The five shapes the events of the handler can take, one per path through the code. -/
theorem events_cases (Decode : Decoder) (Transform : Transformer) (conn : Conn) :
    (∃ err, handleConnection Decode Transform conn =
      [Event.decode, Event.stderr (Fprintln [lit "Decode error:", err]),
       Event.encode { Error := lit "invalid JSON" } (conn.write { Error := lit "invalid JSON" }),
       Event.close]) ∨
    (∃ op, handleConnection Decode Transform conn =
      [Event.decode, Event.stderr (Fprintln [lit "Unsupported op:", op]),
       Event.encode { Error := lit "unsupported op" }
         (conn.write { Error := lit "unsupported op" }),
       Event.close]) ∨
    (∃ src c e, Transform src = (c, some e) ∧ handleConnection Decode Transform conn =
      [Event.decode, Event.transform src,
       Event.stderr (Fprintln [lit "Canonicalization error:", e]),
       Event.encode { Error := e } (conn.write { Error := e }),
       Event.close]) ∨
    (∃ src c, Transform src = (c, none) ∧ handleConnection Decode Transform conn =
      [Event.decode, Event.transform src,
       Event.encode { Result := c } none, Event.close]) ∨
    (∃ src c w, Transform src = (c, none) ∧ handleConnection Decode Transform conn =
      [Event.decode, Event.transform src,
       Event.encode { Result := c } (some w),
       Event.stderr (Fprintln [lit "Encode response error:", w]), Event.close]) := by
  rcases hdec : Decode conn.input with ⟨req, _ | err⟩
  · by_cases hop : req.Op = lit "canon"
    · rcases htr : Transform req.Source with ⟨c, _ | e⟩
      · rcases hw : conn.write { Result := c } with _ | w
        · exact Or.inr (Or.inr (Or.inr (Or.inl ⟨req.Source, c, htr,
            events_success_written Decode Transform conn req c hdec hop htr hw⟩)))
        · exact Or.inr (Or.inr (Or.inr (Or.inr ⟨req.Source, c, w, htr,
            events_success_unwritten Decode Transform conn req c w hdec hop htr hw⟩)))
      · exact Or.inr (Or.inr (Or.inl ⟨req.Source, c, e, htr,
          events_transform_error Decode Transform conn req c e hdec hop htr⟩))
    · exact Or.inr (Or.inl ⟨req.Op,
        events_unsupported Decode Transform conn req hdec hop⟩)
  · exact Or.inl ⟨err, events_decode_error Decode Transform conn req err hdec⟩

/-- The response handed to the encoder is the one the protocol description assigns to the
bytes of the connection, whatever the outcome of the write. -/
theorem responses_handleConnection (Decode : Decoder) (Transform : Transformer) (conn : Conn) :
    responses (handleConnection Decode Transform conn) =
      [specResponse Decode Transform conn.input] := by
  rcases hdec : Decode conn.input with ⟨req, _ | err⟩
  · by_cases hop : req.Op = lit "canon"
    · rcases htr : Transform req.Source with ⟨c, _ | e⟩
      · rcases hw : conn.write { Result := c } with _ | w
        · rw [events_success_written Decode Transform conn req c hdec hop htr hw]
          simp [responses, specResponse, hdec, hop, htr]
        · rw [events_success_unwritten Decode Transform conn req c w hdec hop htr hw]
          simp [responses, specResponse, hdec, hop, htr]
      · rw [events_transform_error Decode Transform conn req c e hdec hop htr]
        simp [responses, specResponse, hdec, hop, htr]
    · rw [events_unsupported Decode Transform conn req hdec hop]
      simp [responses, specResponse, hdec, hop]
  · rw [events_decode_error Decode Transform conn req err hdec]
    simp [responses, specResponse, hdec]

end Jcsd

namespace Engine

open Jcsd (GoString Bytes GoError lit Transformer)

/-! ## The engine model: every canonical text is non-empty -/

theorem toDigitsCore_ne_nil (b : Nat) (fuel n : Nat) (c : Char) (tl : List Char) :
    Nat.toDigitsCore b fuel n (c :: tl) ≠ [] := by
  intro h
  have hlen := Nat.toDigitsCore_lens_eq b fuel n c tl
  rw [h] at hlen
  simp at hlen

theorem decimal_ne_nil (n : Nat) : decimal n ≠ [] := by
  unfold decimal Nat.toDigits
  intro h
  rw [List.map_eq_nil_iff] at h
  simp only [Nat.toDigitsCore] at h
  split at h
  · exact List.cons_ne_nil _ _ h
  · exact toDigitsCore_ne_nil 10 n _ _ _ h

theorem numberText_ne_nil (x : Number) : numberText x ≠ [] := by
  have hdot : lit "." = [46] := by decide
  have hzero : lit "0." = [48, 46] := by decide
  have he : lit "e" = [101] := by decide
  have hs := decimal_ne_nil x.digits
  unfold numberText
  split
  · decide
  · simp only
    intro h
    rw [List.append_eq_nil] at h
    have h2 := h.2
    split at h2
    · exact hs (List.append_eq_nil.mp h2).1
    · split at h2
      · simp [hdot] at h2
      · split at h2
        · simp [hzero] at h2
        · split at h2
          · exact hs (List.append_eq_nil.mp h2).1
          · simp [hdot] at h2

theorem stringText_ne_nil (s : List Char) : stringText s ≠ [] := by
  have hq : lit "\"" = [34] := by decide
  simp [stringText, hq]

/-- No value has an empty canonical text. -/
theorem canonicalize_ne_nil (v : Value) : canonicalize v ≠ [] := by
  have hb : lit "[" = [91] := by decide
  have hc : lit "\x7b" = [123] := by decide
  cases v with
  | null => simp [canonicalize]; decide
  | boolean b => cases b <;> simp [canonicalize] <;> decide
  | number x => simpa [canonicalize] using numberText_ne_nil x
  | string s => simpa [canonicalize] using stringText_ne_nil s
  | array items => simp [canonicalize, hb]
  | object members => simp [canonicalize, hc]

/-- The examples of section 8 of the specification evaluate as stated there: key ordering,
number formatting, string escaping, empty array and empty object. -/
theorem canonicalize_examples :
    canonicalize (Value.object [("b".toList, Value.number ⟨false, 1, 1⟩),
        ("a".toList, Value.number ⟨false, 2, 1⟩), ("B".toList, Value.number ⟨false, 3, 1⟩)]) =
      lit "\x7b\"B\":3,\"a\":2,\"b\":1\x7d" ∧
    canonicalize (Value.object [("a".toList, Value.number ⟨true, 0, 0⟩)]) =
      lit "\x7b\"a\":0\x7d" ∧
    canonicalize (Value.object [("a".toList, Value.number ⟨false, 1, 22⟩)]) =
      lit "\x7b\"a\":1e+21\x7d" ∧
    canonicalize (Value.number ⟨false, 1, 21⟩) = lit "100000000000000000000" ∧
    canonicalize (Value.string "a\n\x01é".toList) = lit "\"a\\n\\u0001é\"" ∧
    canonicalize (Value.array []) = lit "[]" ∧
    canonicalize (Value.object []) = lit "\x7b\x7d" := by
  decide

end Engine

namespace Jcsd

/-- The response assigned to a connection has exactly one field populated as soon as the
text that a `canon` request copies from `Transform`, its output or its error message, is not
empty; on a decode failure and for an op other than `canon` it always has. -/
theorem specResponse_populated (Decode : Decoder) (Transform : Transformer) (input : Bytes)
    (hout : ∀ req c, Decode input = (req, none) → req.Op = lit "canon" →
      Transform req.Source = (c, none) → c ≠ [])
    (hmsg : ∀ req c e, Decode input = (req, none) → req.Op = lit "canon" →
      Transform req.Source = (c, some e) → e ≠ []) :
    exactlyOnePopulated (specResponse Decode Transform input) = true := by
  unfold specResponse
  rcases hdec : Decode input with ⟨req, _ | err⟩
  · by_cases hop : req.Op = lit "canon"
    · rcases htr : Transform req.Source with ⟨c, _ | e⟩
      · have hc := hout req c hdec hop htr
        cases c with
        | nil => exact absurd rfl hc
        | cons x xs => simp [hop, htr, exactlyOnePopulated, populated]
      · have he := hmsg req c e hdec hop htr
        cases e with
        | nil => exact absurd rfl he
        | cons x xs => simp [hop, htr, exactlyOnePopulated, populated]
    · simp [hop]; decide
  · simp; decide

end Jcsd

namespace Jcsd

/-! ## The request server -/

/-- C1: when the request decodes with op exactly `canon` and `Transform` applied to the bytes
of the source returns `c` without error, the handler hands exactly one `Response` to the
encoder, with `Result` equal to `c` and an empty `Error`. -/
theorem handleConnection_canon_result (Decode : Decoder) (Transform : Transformer)
    (conn : Conn) (req : Request) (c : Bytes)
    (hdec : Decode conn.input = (req, none)) (hop : req.Op = lit "canon")
    (htr : Transform req.Source = (c, none)) :
    responses (handleConnection Decode Transform conn) = [{ Result := c, Error := [] }] := by
  rw [responses_handleConnection]
  simp [specResponse, hdec, hop, htr]

/-- Witness of C1: the request `canon` of the empty object yields the canonical text. -/
theorem handleConnection_canon_result_witness :
    responses (handleConnection Fixture.decode Fixture.transform Fixture.canonConn) =
      [{ Result := lit "\x7b\x7d", Error := [] }] :=
  handleConnection_canon_result Fixture.decode Fixture.transform Fixture.canonConn
    { Op := lit "canon", Source := lit "\x7b\x7d" } (lit "\x7b\x7d")
    (by decide) (by decide) (by decide)

/-- C2: when the request decodes and its op is any string other than exactly `canon`, the one
`Response` handed to the encoder has `Error` equal to `unsupported op` and an empty `Result`,
and `Transform` is not called. -/
theorem handleConnection_unsupported_op (Decode : Decoder) (Transform : Transformer)
    (conn : Conn) (req : Request)
    (hdec : Decode conn.input = (req, none)) (hop : req.Op ≠ lit "canon") :
    responses (handleConnection Decode Transform conn) =
        [{ Result := [], Error := lit "unsupported op" }] ∧
      transformCalls (handleConnection Decode Transform conn) = [] := by
  rw [events_unsupported Decode Transform conn req hdec hop]
  simp [responses, transformCalls]

/-- Witness of C2: the op `bogus` is rejected; the ops `Canon` and the empty op differ from
`canon` as well. -/
theorem handleConnection_unsupported_op_witness :
    (responses (handleConnection Fixture.decode Fixture.transform Fixture.bogusConn) =
        [{ Result := [], Error := lit "unsupported op" }] ∧
      transformCalls (handleConnection Fixture.decode Fixture.transform Fixture.bogusConn) = [])
    ∧ lit "Canon" ≠ lit "canon" ∧ lit "" ≠ lit "canon" :=
  ⟨handleConnection_unsupported_op Fixture.decode Fixture.transform Fixture.bogusConn
    { Op := lit "bogus", Source := lit "\x7b\x7d" } (by decide) (by decide),
   by decide, by decide⟩

/-- C3: when decoding the request fails, whatever was stored in the request before the
failure, the handler logs the decode error, hands the encoder the one `Response` with `Error`
equal to `invalid JSON` and an empty `Result`, and closes the connection: the events are
exactly these, so the op plays no role and `Transform` is not called. -/
theorem handleConnection_invalid_json (Decode : Decoder) (Transform : Transformer)
    (conn : Conn) (req : Request) (err : GoError)
    (hdec : Decode conn.input = (req, some err)) :
    handleConnection Decode Transform conn =
        [Event.decode, Event.stderr (Fprintln [lit "Decode error:", err]),
         Event.encode { Result := [], Error := lit "invalid JSON" }
           (conn.write { Result := [], Error := lit "invalid JSON" }),
         Event.close] ∧
      responses (handleConnection Decode Transform conn) =
        [{ Result := [], Error := lit "invalid JSON" }] ∧
      transformCalls (handleConnection Decode Transform conn) = [] := by
  rw [events_decode_error Decode Transform conn req err hdec]
  simp [responses, transformCalls]

/-- Witness of C3: a connection carrying only an opening brace. -/
theorem handleConnection_invalid_json_witness :
    responses (handleConnection Fixture.decode Fixture.transform Fixture.braceConn) =
        [{ Result := [], Error := lit "invalid JSON" }] ∧
      transformCalls (handleConnection Fixture.decode Fixture.transform Fixture.braceConn) = [] :=
  (handleConnection_invalid_json Fixture.decode Fixture.transform Fixture.braceConn
    {} (lit "unexpected EOF") (by decide)).2

/-- C4: when the request decodes with op `canon` and `Transform` on the source bytes returns
an error with message `e` (whatever bytes it returns beside it), the one `Response` handed to
the encoder has `Error` equal to `e` and an empty `Result`. -/
theorem handleConnection_transform_error_response (Decode : Decoder)
    (Transform : Transformer) (conn : Conn) (req : Request) (c : Bytes) (e : GoError)
    (hdec : Decode conn.input = (req, none)) (hop : req.Op = lit "canon")
    (htr : Transform req.Source = (c, some e)) :
    responses (handleConnection Decode Transform conn) = [{ Result := [], Error := e }] := by
  rw [responses_handleConnection]
  simp [specResponse, hdec, hop, htr]

/-- Witness of C4: the request `canon` of a source that is not JSON. -/
theorem handleConnection_transform_error_response_witness :
    responses (handleConnection Fixture.decode Fixture.transform Fixture.badSourceConn) =
      [{ Result := [], Error := lit "invalid character" }] :=
  handleConnection_transform_error_response Fixture.decode Fixture.transform
    Fixture.badSourceConn { Op := lit "canon", Source := lit "x" } [] (lit "invalid character")
    (by decide) (by decide) (by decide)

/-- C5: for every connection input and every outcome of `Transform`, the engine being the one
the specification describes (`Engine.Transform` over any decoder `parse`) and the parse error
met, if any, carrying a non-empty message, the `Response` the handler emits has exactly one of
`Result` and `Error` populated: not both, not neither. -/
theorem handleConnection_exactly_one_populated (Decode : Decoder)
    (parse : Bytes → Except Engine.ParseError Engine.Value) (conn : Conn) (r : Response)
    (hmsg : ∀ req e, Decode conn.input = (req, none) → req.Op = lit "canon" →
      parse req.Source = Except.error e → e.message ≠ [])
    (hr : r ∈ responses (handleConnection Decode (Engine.Transform parse) conn)) :
    exactlyOnePopulated r = true := by
  rw [responses_handleConnection, List.mem_singleton] at hr
  subst hr
  apply specResponse_populated
  · intro req c _ _ htr
    unfold Engine.Transform at htr
    split at htr
    · cases htr
    · cases htr
      exact Engine.canonicalize_ne_nil _
  · intro req c e hdec hop htr
    unfold Engine.Transform at htr
    split at htr
    · next pe hpe =>
      cases htr
      exact hmsg req pe hdec hop hpe
    · cases htr

/-- Witness of C5: the request `canon` of a source the sample decoder refuses, with the message
`invalid character`, is answered with exactly `Error` populated. -/
theorem handleConnection_exactly_one_populated_witness :
    exactlyOnePopulated { Result := [], Error := lit "invalid character" } = true :=
  handleConnection_exactly_one_populated Fixture.decode Fixture.parse Fixture.badSourceConn
    { Result := [], Error := lit "invalid character" }
    (fun req e hdec _ hpe => by
      have hreq : req = { Op := lit "canon", Source := lit "x" } := by
        have h : Fixture.decode Fixture.badSourceConn.input =
            ({ Op := lit "canon", Source := lit "x" }, none) := by decide
        rw [h] at hdec
        exact (Prod.mk.inj hdec).1.symm
      subst hreq
      have hp : Fixture.parse (lit "x") =
          Except.error { position := 0, message := lit "invalid character" } := by
        unfold Fixture.parse
        rw [if_neg (by decide)]
      rw [hp] at hpe
      cases hpe
      decide)
    (by decide)

/-- C6: on every path the handler calls `Decode` once, hands exactly one `Response` to the
encoder, and closes the connection once, as its last step: nothing is read or written after
the first exchange. -/
theorem handleConnection_one_exchange (Decode : Decoder) (Transform : Transformer)
    (conn : Conn) :
    decodeCount (handleConnection Decode Transform conn) = 1 ∧
      (responses (handleConnection Decode Transform conn)).length = 1 ∧
      closeCount (handleConnection Decode Transform conn) = 1 ∧
      ∃ before, handleConnection Decode Transform conn = before ++ [Event.close] := by
  rcases events_cases Decode Transform conn with
    ⟨err, h⟩ | ⟨op, h⟩ | ⟨src, c, e, _, h⟩ | ⟨src, c, _, h⟩ | ⟨src, c, w, _, h⟩ <;>
  · rw [h]
    refine ⟨by simp [decodeCount], by simp [responses], by simp [closeCount], ?_⟩
    exact ⟨_, (List.dropLast_append_getLast (by simp)).symm⟩

end Jcsd

namespace Jcsd

/-- Every goroutine the accept loop starts runs the handler on its own connection. -/
theorem acceptLoop_mem (Decode : Decoder) (Transform : Transformer)
    (accepts : List (Conn × Option GoError)) (conn : Conn) (events : List Event)
    (h : (conn, events) ∈ acceptLoop Decode Transform accepts) :
    events = handleConnection Decode Transform conn := by
  induction accepts with
  | nil => simp [acceptLoop] at h
  | cons a rest ih =>
    rcases a with ⟨c, _ | err⟩
    · simp only [acceptLoop, List.mem_cons, Prod.mk.injEq] at h
      rcases h with ⟨hc, he⟩ | h
      · rw [he, hc]
      · exact ih h
    · simp only [acceptLoop] at h
      exact ih h

/-- Every connection that `Accept` returns without error is served: the accept loop starts a
goroutine running the handler on it. -/
theorem acceptLoop_served (Decode : Decoder) (Transform : Transformer)
    (accepts : List (Conn × Option GoError)) (conn : Conn)
    (h : (conn, none) ∈ accepts) :
    (conn, handleConnection Decode Transform conn) ∈ acceptLoop Decode Transform accepts := by
  induction accepts with
  | nil => simp at h
  | cons a rest ih =>
    rcases a with ⟨c, _ | err⟩
    · simp only [List.mem_cons, Prod.mk.injEq, and_true] at h
      simp only [acceptLoop, List.mem_cons, Prod.mk.injEq]
      rcases h with hc | h
      · exact Or.inl ⟨hc, by rw [hc]⟩
      · exact Or.inr (ih h)
    · simp only [List.mem_cons, Prod.mk.injEq] at h
      simp only [acceptLoop]
      rcases h with ⟨_, hn⟩ | h
      · cases hn
      · exact ih h

/-- The accept loop starts one goroutine for each result of `Accept` without error, in the
order of acceptance, and none for a failed `Accept`. -/
theorem acceptLoop_connections (Decode : Decoder) (Transform : Transformer)
    (accepts : List (Conn × Option GoError)) :
    (acceptLoop Decode Transform accepts).map (fun g => g.1.input) =
      (accepts.filter (fun a => a.2.isNone)).map (fun a => a.1.input) := by
  induction accepts with
  | nil => simp [acceptLoop]
  | cons a rest ih =>
    rcases a with ⟨c, _ | err⟩
    · simp [acceptLoop, ih]
    · simp [acceptLoop, ih]

/-- The goroutines of a server that has bound its socket are those of the accept loop. -/
theorem main_goroutines (Decode : Decoder) (Transform : Transformer) (getenv : GoString)
    (listen : GoString → Option GoError) (accepts : List (Conn × Option GoError))
    (hl : listen (if getenv = lit "" then defaultSocket else getenv) = none) :
    (main Decode Transform getenv listen accepts).goroutines =
      acceptLoop Decode Transform accepts := by
  simp [main, hl]

/-- C9: in two runs of the server that have bound their sockets, with any socket setting, any
other connections (accepted or failed) and any write behaviour, a connection accepted in the
first run and one accepted in the second that carry the same bytes are both served, each by a
goroutine running the handler on it, and every goroutine serving either of them hands the
encoder the same response, the one the protocol assigns to those bytes alone. -/
theorem main_connection_independence (Decode : Decoder) (Transform : Transformer)
    (getenv1 getenv2 : GoString) (listen1 listen2 : GoString → Option GoError)
    (accepts1 accepts2 : List (Conn × Option GoError)) (conn1 conn2 : Conn)
    (hl1 : listen1 (if getenv1 = lit "" then defaultSocket else getenv1) = none)
    (hl2 : listen2 (if getenv2 = lit "" then defaultSocket else getenv2) = none)
    (ha1 : (conn1, none) ∈ accepts1) (ha2 : (conn2, none) ∈ accepts2)
    (hsame : conn1.input = conn2.input) :
    (conn1, handleConnection Decode Transform conn1) ∈
        (main Decode Transform getenv1 listen1 accepts1).goroutines ∧
      (conn2, handleConnection Decode Transform conn2) ∈
        (main Decode Transform getenv2 listen2 accepts2).goroutines ∧
      ∀ events1 events2,
        (conn1, events1) ∈ (main Decode Transform getenv1 listen1 accepts1).goroutines →
        (conn2, events2) ∈ (main Decode Transform getenv2 listen2 accepts2).goroutines →
        responses events1 = [specResponse Decode Transform conn1.input] ∧
          responses events2 = [specResponse Decode Transform conn1.input] := by
  rw [main_goroutines Decode Transform getenv1 listen1 accepts1 hl1,
    main_goroutines Decode Transform getenv2 listen2 accepts2 hl2]
  refine ⟨acceptLoop_served Decode Transform accepts1 conn1 ha1,
    acceptLoop_served Decode Transform accepts2 conn2 ha2, ?_⟩
  intro events1 events2 h1 h2
  rw [acceptLoop_mem Decode Transform accepts1 conn1 events1 h1,
    acceptLoop_mem Decode Transform accepts2 conn2 events2 h2,
    responses_handleConnection, responses_handleConnection, hsame]
  exact ⟨rfl, rfl⟩

/-- Witness of C9: the `canon` request served alone on a healthy connection, and served on a
connection whose writes fail, after a connection with a bogus op and a failed accept and
before a connection carrying a lone brace, is served in both runs. -/
theorem main_connection_independence_witness :
    (Fixture.canonConn,
        handleConnection Fixture.decode Fixture.transform Fixture.canonConn) ∈
        (main Fixture.decode Fixture.transform (lit "") (fun _ => none)
          [(Fixture.canonConn, none)]).goroutines ∧
      (Fixture.brokenCanonConn,
        handleConnection Fixture.decode Fixture.transform Fixture.brokenCanonConn) ∈
        (main Fixture.decode Fixture.transform (lit "/tmp/jcs.sock") (fun _ => none)
          [(Fixture.bogusConn, none), (Fixture.braceConn, some (lit "accept failed")),
            (Fixture.brokenCanonConn, none), (Fixture.braceConn, none)]).goroutines :=
  have h := main_connection_independence Fixture.decode Fixture.transform
    (lit "") (lit "/tmp/jcs.sock") (fun _ => none) (fun _ => none)
    [(Fixture.canonConn, none)]
    [(Fixture.bogusConn, none), (Fixture.braceConn, some (lit "accept failed")),
      (Fixture.brokenCanonConn, none), (Fixture.braceConn, none)]
    Fixture.canonConn Fixture.brokenCanonConn rfl rfl
    (List.mem_cons_self _ _)
    (List.mem_cons_of_mem _ (List.mem_cons_of_mem _ (List.mem_cons_self _ _))) rfl
  ⟨h.1, h.2.1⟩

/-- C10 fails on the three error paths: on a connection whose writes fail with `broken pipe`,
a lone brace (decode failure), a bogus op and a refused source each leave on standard error
only the line about the original failure, and no line about the failed write; the success
path, on the same kind of connection, does log the failed write. -/
theorem handleConnection_write_failure_unlogged :
    stderrLines (handleConnection Fixture.decode Fixture.transform
        { input := lit "\x7b", write := fun _ => some (lit "broken pipe") }) =
      [lit "Decode error: unexpected EOF\n"] ∧
    stderrLines (handleConnection Fixture.decode Fixture.transform
        { input := Fixture.bogusConn.input, write := fun _ => some (lit "broken pipe") }) =
      [lit "Unsupported op: bogus\n"] ∧
    stderrLines (handleConnection Fixture.decode Fixture.transform
        { input := Fixture.badSourceConn.input, write := fun _ => some (lit "broken pipe") }) =
      [lit "Canonicalization error: invalid character\n"] ∧
    stderrLines (handleConnection Fixture.decode Fixture.transform
        { input := Fixture.canonConn.input, write := fun _ => some (lit "broken pipe") }) =
      [lit "Encode response error: broken pipe\n"] := by
  decide

end Jcsd

namespace Cli

open Jcsd (GoString Bytes GoError lit Fprintln Transformer)

/-! ## The command line front end -/

/-- The line `fmt.Println` writes for one string operand: the string and a newline byte. -/
theorem Fprintln_single (s : GoString) : Fprintln [s] = s ++ [10] := by
  have h : lit "\n" = [10] := by decide
  simp [Fprintln, h, List.intercalate]

/-- C7: when reading standard input succeeds with bytes `b` and `Transform b` returns `c`
without error, the program calls `Transform` exactly once (on `b`), writes `c` followed by
one newline byte to standard output, writes nothing to standard error, and exits with 0. -/
theorem cli_main_success (Transform : Transformer) (b c : Bytes)
    (htr : Transform b = (c, none)) :
    (main (b, none) Transform).transformCalls = [b] ∧
      (main (b, none) Transform).stdout = c ++ [10] ∧
      (main (b, none) Transform).stderr = [] ∧
      (main (b, none) Transform).exit = 0 := by
  simp [main, htr, Fprintln_single]

/-- Witness of C7: the empty object on standard input. -/
theorem cli_main_success_witness :
    (main (lit "\x7b\x7d", none) Fixture.transform).transformCalls = [lit "\x7b\x7d"] ∧
      (main (lit "\x7b\x7d", none) Fixture.transform).stdout = lit "\x7b\x7d" ++ [10] ∧
      (main (lit "\x7b\x7d", none) Fixture.transform).stderr = [] ∧
      (main (lit "\x7b\x7d", none) Fixture.transform).exit = 0 :=
  cli_main_success Fixture.transform (lit "\x7b\x7d") (lit "\x7b\x7d") (by decide)

/-- C8: the program exits with 1 exactly when reading standard input fails or `Transform`
returns an error, and with 0 otherwise; when it exits with 1 it has written a non-empty
diagnostic to standard error and nothing to standard output. -/
theorem cli_main_failure (stdin : Bytes × Option GoError) (Transform : Transformer) :
    ((main stdin Transform).exit = 1 ↔
        (stdin.2 ≠ none ∨ (Transform stdin.1).2 ≠ none)) ∧
      ((main stdin Transform).exit = 1 ∨ (main stdin Transform).exit = 0) ∧
      ((main stdin Transform).exit = 1 →
        (main stdin Transform).stderr ≠ [] ∧ (main stdin Transform).stdout = []) := by
  rcases stdin with ⟨input, _ | rerr⟩
  · rcases htr : Transform input with ⟨c, _ | terr⟩
    · simp [main, htr]
    · simp [main, htr, Jcsd.Fprintln_ne_nil]
  · simp [main, Jcsd.Fprintln_ne_nil]

/-- Witness of C8: a read error, with some bytes already read, gives exit status 1, a
diagnostic on standard error and an empty standard output. -/
theorem cli_main_failure_witness :
    (main (lit "\x7b", some (lit "read error")) Fixture.transform).stderr ≠ [] ∧
      (main (lit "\x7b", some (lit "read error")) Fixture.transform).stdout = [] :=
  (cli_main_failure (lit "\x7b", some (lit "read error")) Fixture.transform).2.2 (by decide)

end Cli
